import Mathlib

/-!
Shallow embedding of the Telegram expense-tracker bot (`src/main.py`) and
verification of the frozen claims about its specification.

The data model follows the source: a ledger row is a list of strings (the
values returned by `sheet.get_all_values()` / `sheet.row_values`), the
conversation state is the integer-enumerated state of the
`ConversationHandler`, and the per-user scratch context is
`context.user_data`.  External collaborators (Google Sheets, Google Drive,
photo download) are passed in as explicit outcome parameters.
-/

/-- Two-digit zero padding, modelling Python `f"{n:02d}"`. -/
def pad2 (n : Nat) : String :=
  if n < 10 then "0" ++ toString n else toString n

/-- Four-digit zero padding, modelling `strftime("%Y")`. -/
def pad4 (n : Nat) : String :=
  if n < 10 then "000" ++ toString n
  else if n < 100 then "00" ++ toString n
  else if n < 1000 then "0" ++ toString n
  else toString n

/-- Date string `f"{year}.{month:02d}.{day:02d}"` (src/main.py line 211). -/
def dateStr (year month day : Nat) : String :=
  toString year ++ "." ++ pad2 month ++ "." ++ pad2 day

/-- Leap-year predicate, modelling `calendar.isleap`. -/
def isleap (y : Nat) : Bool :=
  y % 4 == 0 && (y % 100 != 0 || y % 400 == 0)

/-- Month lengths of a non-leap year, modelling `calendar.mdays` (index 0 unused). -/
def mdays : List Nat := [0, 31, 28, 31, 30, 31, 30, 31, 31, 30, 31, 30, 31]

/-- Number of days in a month: the second component of
`calendar.monthrange(year, month)` (src/main.py line 198). -/
def daysInMonth (year month : Nat) : Nat :=
  mdays.getD month 0 + (if month == 2 && isleap year then 1 else 0)

/-- Days in all years before year `y` of the proleptic Gregorian calendar,
as in `datetime.date.toordinal`. -/
def daysBeforeYear (y : Nat) : Nat :=
  365 * (y - 1) + (y - 1) / 4 - (y - 1) / 100 + (y - 1) / 400

/-- Days in the months of year `y` strictly before month `m`. -/
def daysBeforeMonth (y m : Nat) : Nat :=
  ((List.range' 1 (m - 1)).map (daysInMonth y)).sum

/-- Proleptic Gregorian ordinal of a date, modelling `datetime.date.toordinal`
(0001-01-01 has ordinal 1). -/
def toordinal (y m d : Nat) : Nat :=
  daysBeforeYear y + daysBeforeMonth y m + d

/-- Weekday index with Monday = 0, modelling `datetime.weekday()`. -/
def weekday (y m d : Nat) : Nat :=
  (toordinal y m d - 1) % 7

/-- Weekday of the first day of a month (src/main.py line 205). -/
def firstDayWeekday (year month : Nat) : Nat :=
  weekday year month 1

/-- An inline keyboard button: label text plus callback action tag. -/
structure Button where
  text : String
  callback_data : String
deriving DecidableEq, Repr

/-- Blank/inert cell padding the first calendar row (src/main.py line 207). -/
def blankButton : Button := { text := " ", callback_data := "ignore" }

/-- A day cell: the label is the day number and the action tag carries the
full date string (src/main.py line 212). -/
def dayButton (year month day : Nat) : Button :=
  { text := toString day, callback_data := "day_" ++ dateStr year month day }

/-- Navigation row appended under the day grid (src/main.py lines 220-223). -/
def navRow : List Button :=
  [{ text := "⬅️ Back to Months", callback_data := "back_to_months" },
   { text := "🏠 Main Menu", callback_data := "back_to_menu" }]

/-- The day-placing loop of `get_days_keyboard` (src/main.py lines 210-217):
consume the remaining day numbers, flushing the current `week` into the grid
after Saturday (`(first_day_weekday + day) % 7 == 0`) or on the last day of
the month. -/
def dayRowsGo (year month fdw numDays : Nat) :
    List Nat → List Button → List (List Button) → List (List Button)
  | [], _, acc => acc
  | d :: ds, week, acc =>
    let week2 := week ++ [dayButton year month d]
    if (fdw + d) % 7 == 0 || d == numDays then
      dayRowsGo year month fdw numDays ds [] (acc ++ [week2])
    else
      dayRowsGo year month fdw numDays ds week2 acc

/-- The day-grid rows of `get_days_keyboard` (src/main.py lines 195-217):
the week list starts with one blank per weekday index of day 1, then one cell
per day of the month is placed. -/
def dayRows (year month : Nat) : List (List Button) :=
  dayRowsGo year month (firstDayWeekday year month) (daysInMonth year month)
    (List.range' 1 (daysInMonth year month))
    (List.replicate (firstDayWeekday year month) blankButton) []

/-- `get_days_keyboard(month, year)` (src/main.py lines 195-225): the day grid
plus the navigation row. -/
def get_days_keyboard (month year : Nat) : List (List Button) :=
  dayRows year month ++ [navRow]

/-- Structural split of a character list at every occurrence of `sep`. -/
def splitChar (sep : Char) : List Char → List (List Char)
  | [] => [[]]
  | c :: cs =>
    let r := splitChar sep cs
    if c = sep then [] :: r
    else
      match r with
      | [] => [[c]]
      | g :: gs => (c :: g) :: gs

/-- Split of a string at a separator character, modelling `str.split(sep)` /
`String.splitOn` for the single-character separators the source uses. -/
def splitOnChar (sep : Char) (s : String) : List String :=
  (splitChar sep s.data).map (fun cs => String.mk cs)

/-- Value of a digit string, most significant digit first. -/
def digitsVal (s : String) : Nat :=
  s.data.foldl (fun a c => a * 10 + (c.toNat - 48)) 0

/-- Digit-only numeric parse of a string (models `int(text)` on unsigned
input, and the digit test of CPython's number scanners). -/
def natOfDigits? (s : String) : Option Nat :=
  if s.data ≠ [] ∧ s.data.all Char.isDigit then some (digitsVal s) else none

/-- ASCII whitespace strip, modelling `str.strip()`. -/
def trimStr (s : String) : String :=
  String.mk (((s.data.dropWhile Char.isWhitespace).reverse.dropWhile
    Char.isWhitespace).reverse)

/-- Lower-casing, modelling `str.lower()` on the ASCII input compared here. -/
def lowerStr (s : String) : String :=
  String.mk (s.data.map Char.toLower)

/-- Test whether `s` starts with `p`, modelling `str.startswith(p)` and the
anchored regex patterns of the handler table. -/
def startsWithStr (p s : String) : Bool :=
  p.data.isPrefixOf s.data

/-- Drop the first `n` characters, modelling the slicing `data[n:]`. -/
def dropStr (n : Nat) (s : String) : String :=
  String.mk (s.data.drop n)

/-- Code-point lexicographic strict order on character lists, as Python
compares strings. -/
def lexLt : List Char → List Char → Bool
  | [], [] => false
  | [], _ :: _ => true
  | _ :: _, [] => false
  | a :: as, b :: bs =>
    if a.toNat < b.toNat then true
    else if b.toNat < a.toNat then false
    else lexLt as bs

/-- Python string comparison `a < b`. -/
def strLt (a b : String) : Bool :=
  lexLt a.data b.data

/-- Decimal-literal model of CPython `float(text)`: optional surrounding
whitespace and sign, then digits with an optional decimal point (at least one
digit overall).  Exponents, `inf` and `nan` are not modelled; on the plain
decimal inputs the bot deals in, the parsed value is exact. -/
def parseFloat? (s : String) : Option ℚ :=
  let t := trimStr s
  let signed : Bool × String :=
    if startsWithStr "-" t then (true, dropStr 1 t)
    else if startsWithStr "+" t then (false, dropStr 1 t)
    else (false, t)
  let val? : Option ℚ :=
    match splitOnChar '.' signed.2 with
    | [ip] =>
      match natOfDigits? ip with
      | some n => some (n : ℚ)
      | none => none
    | [ip, fp] =>
      if ip.data.length + fp.data.length = 0 then none
      else if ip.data.all Char.isDigit && fp.data.all Char.isDigit then
        some ((digitsVal ip : ℚ) + (digitsVal fp : ℚ) / (10 : ℚ) ^ fp.data.length)
      else none
    | _ => none
  match val? with
  | some v => some (if signed.1 then -v else v)
  | none => none

/-- Model of `datetime.strptime(text, "%Y.%m.%d")` (followed by the implicit
date validation): four year digits, one or two month and day digits, and a
real calendar date. -/
def parseDate? (s : String) : Option (Nat × Nat × Nat) :=
  match splitOnChar '.' s with
  | [ys, ms, ds] =>
    match natOfDigits? ys, natOfDigits? ms, natOfDigits? ds with
    | some y, some m, some d =>
      if ys.data.length = 4 ∧ 1 ≤ ms.data.length ∧ ms.data.length ≤ 2
          ∧ 1 ≤ ds.data.length ∧ ds.data.length ≤ 2
          ∧ 1 ≤ y ∧ 1 ≤ m ∧ m ≤ 12 ∧ 1 ≤ d ∧ d ≤ daysInMonth y m then
        some (y, m, d)
      else none
    | _, _, _ => none
  | _ => none

/-- Fixed two-decimal rendering, modelling `f"{amount:.2f}"` (exact when the
value has at most two fractional digits, as the bot's decimal inputs do). -/
def format2 (q : ℚ) : String :=
  let n : Int := round (q * 100)
  let a := n.natAbs
  (if n < 0 then "-" else "") ++ toString (a / 100) ++ "." ++ pad2 (a % 100)

/-- Conversation states (src/main.py lines 24-26); `MENU` stands for
`ConversationHandler.END`, i.e. control handed back to the main menu. -/
inductive ConvState where
  | MENU
  | DATE
  | PLACE
  | AMOUNT
  | CATEGORY
  | RECEIPT_NUMBER
  | TAG
  | RECEIPT_UPLOAD
  | SEARCH_DATE_RANGE
  | EDIT_FIELD
  | EDIT_VALUE
  | DELETE_CONFIRM
  | CALENDAR_MONTH_SELECTION
  | CALENDAR_DAY_SELECTION
deriving DecidableEq, Repr

/-- `amount_input` (src/main.py lines 293-314): any text `float()` can parse
is accepted and stored in the draft as-is, moving to CATEGORY; anything else
re-prompts in AMOUNT. -/
def amount_input (text : String) : Option ℚ × ConvState :=
  match parseFloat? text with
  | some amount => (some amount, ConvState.CATEGORY)
  | none => (none, ConvState.AMOUNT)

/-- The amount branch of `handle_edit_value` (src/main.py lines 1098-1111): a
parsable number is re-serialized with two decimals and committed through
`update_expense_field` (which ends in MENU); anything else re-prompts in
EDIT_VALUE. -/
def editAmountStep (text : String) : Option String × ConvState :=
  match parseFloat? text with
  | some amount => (some (format2 amount), ConvState.MENU)
  | none => (none, ConvState.EDIT_VALUE)

/-- The in-progress draft dict `context.user_data['expense']`; a `none` field
is a key not yet set. -/
structure DraftDict where
  date : Option String := none
  place : Option String := none
  amount : Option ℚ := none
  category : Option String := none
  receipt_number : Option String := none
  tag : Option String := none
  upload : Option String := none
deriving DecidableEq, Repr

/-- The message that triggers `receipt_upload`: free text or a photo. -/
inductive MsgInput where
  | text (s : String)
  | photo
deriving DecidableEq, Repr

/-- Outcome of the photo branch of `receipt_upload`: the download step raises
(src/main.py lines 416-419), the Drive upload succeeds (line 448), the Drive
upload raises (lines 458-461), or some other receipt-processing exception is
raised (lines 463-468). -/
inductive PhotoOutcome where
  | downloadFailed
  | uploaded (link : String)
  | uploadFailed
  | processingError
deriving DecidableEq, Repr

/-- Reply of the service-initialization failure path (src/main.py line 378). -/
def connectErrMsg : String :=
  "❌ There was an error connecting to Google services. Please try again later."

/-- Re-prompt when the message is neither a photo nor skip (line 394). -/
def promptPhotoMsg : String :=
  "Please upload a photo or type 'skip'. Send the receipt as an image:"

/-- Re-prompt of the photo-download failure path (line 418). -/
def downloadErrMsg : String :=
  "❌ Error downloading your photo. Please try again."

/-- Reply of the Drive-upload failure path (line 460). -/
def uploadErrMsg : String :=
  "❌ Error uploading to Google Drive. Will save expense data without receipt."

/-- Reply of the receipt-processing failure path (line 465). -/
def processingErrMsg : String :=
  "❌ There was an error processing your receipt. The expense data will still be saved."

/-- Reply of the ledger-append failure path (line 511). -/
def saveErrMsg : String :=
  "❌ There was an error saving your expense data. Please try again later."

/-- The receipt line of the save confirmation (lines 488-492). -/
def receiptMsg (driveFileLink : String) : String :=
  if driveFileLink ≠ "" then "📎 Receipt uploaded and linked." else "📝 No receipt uploaded."

/-- The save confirmation (lines 495-507), telling the user the record was
saved and reporting whether a receipt link was stored. -/
def savedMsg (d p : String) (a : ℚ) (c rn t link : String) : String :=
  "✅ Expense saved successfully!\n\n📅 Date: " ++ d ++ "\n🏪 Place: " ++ p ++
  "\n💰 Amount: " ++ toString a ++ "\n📂 Category: " ++ c ++ "\n🧾 Receipt #: " ++ rn ++
  "\n🏷️ Tag: " ++ t ++ "\n" ++ receiptMsg link ++ "\n\nWhat would you like to do next?"

/-- Result of one run of the `receipt_upload` handler: replies sent, the row
appended to the ledger (if any), the final `expense_data['upload']` value, the
next conversation state and whether `context.user_data.clear()` ran. -/
structure ReceiptUploadRes where
  replies : List String
  appended : Option (List String)
  uploadField : Option String
  nextState : ConvState
  cleared : Bool
deriving DecidableEq, Repr

/-- The save block of `receipt_upload` (src/main.py lines 470-518): build the
7-field row from the draft (a missing key raises inside the save `try` and is
caught at line 509, like an append failure), append it when the ledger write
succeeds, confirm or report the failure, then clear the scratch context
unconditionally and end (back to MENU). -/
def saveExpense (e : DraftDict) (driveFileLink : String) (prior : List String)
    (appendOk : Bool) : ReceiptUploadRes :=
  match e.date, e.place, e.amount, e.category, e.receipt_number, e.tag, e.upload with
  | some d, some p, some a, some c, some rn, some t, some u =>
    if appendOk then
      { replies := prior ++ [savedMsg d p a c rn t driveFileLink]
        appended := some [d, p, toString a, c, rn, t, u]
        uploadField := some u
        nextState := ConvState.MENU
        cleared := true }
    else
      { replies := prior ++ [saveErrMsg]
        appended := none
        uploadField := some u
        nextState := ConvState.MENU
        cleared := true }
  | _, _, _, _, _, _, _ =>
    { replies := prior ++ [saveErrMsg]
      appended := none
      uploadField := e.upload
      nextState := ConvState.MENU
      cleared := true }

/-- `receipt_upload` (src/main.py lines 362-518) as a function of the draft,
the incoming message and the outcomes of the external calls (service
initialization, photo download/upload, ledger append). -/
def receipt_upload (e : DraftDict) (input : MsgInput) (servicesOk : Bool)
    (photoRes : PhotoOutcome) (appendOk : Bool) : ReceiptUploadRes :=
  if servicesOk = false then
    { replies := [connectErrMsg], appended := none, uploadField := e.upload
      nextState := ConvState.MENU, cleared := false }
  else
    match input with
    | MsgInput.text s =>
      if lowerStr s = "skip" then
        saveExpense { e with upload := some "No receipt" } "" [] appendOk
      else
        { replies := [promptPhotoMsg], appended := none, uploadField := e.upload
          nextState := ConvState.RECEIPT_UPLOAD, cleared := false }
    | MsgInput.photo =>
      match photoRes with
      | PhotoOutcome.downloadFailed =>
        { replies := [downloadErrMsg], appended := none, uploadField := e.upload
          nextState := ConvState.RECEIPT_UPLOAD, cleared := false }
      | PhotoOutcome.uploaded link =>
        saveExpense { e with upload := some ("[View Receipt](" ++ link ++ ")") }
          link [] appendOk
      | PhotoOutcome.uploadFailed =>
        saveExpense { e with upload := some "Upload failed - error" } ""
          [uploadErrMsg] appendOk
      | PhotoOutcome.processingError =>
        saveExpense { e with upload := some "Processing error" } ""
          [processingErrMsg] appendOk

/-- A ledger row as returned by `sheet.get_all_values()` / `row_values`. -/
abbrev SheetRow := List String

/-- `sheet.row_values(index)`: fetch a 1-indexed row (header is row 1). -/
def row_values (sheet : List SheetRow) (rowIndex : Nat) : SheetRow :=
  sheet.getD (rowIndex - 1) []

/-- `sheet.update_cell(index, col, value)`: write a single 1-indexed cell. -/
def update_cell (sheet : List SheetRow) (rowIndex colIndex : Nat) (value : String) :
    List SheetRow :=
  sheet.set (rowIndex - 1) ((sheet.getD (rowIndex - 1) []).set (colIndex - 1) value)

/-- Result of `update_expense_field`: the new ledger, the re-read row shown to
the user, the next state and whether the edit context was cleared. -/
structure UpdateFieldRes where
  newSheet : List SheetRow
  displayed : SheetRow
  nextState : ConvState
  clearedEditCtx : Bool
deriving DecidableEq, Repr

/-- `update_expense_field` (src/main.py lines 1126-1165): read the current
row, update the single cell `(row_index, field_index + 1)`, re-read the row,
show it, clear the edit context and end in MENU. -/
def update_expense_field (sheet : List SheetRow) (row_index field_index : Nat)
    (new_value : String) : UpdateFieldRes :=
  let _current_values := row_values sheet row_index
  let sheet2 := update_cell sheet row_index (field_index + 1) new_value
  let updated_values := row_values sheet2 row_index
  { newSheet := sheet2
    displayed := updated_values
    nextState := ConvState.MENU
    clearedEditCtx := true }

/-- Date read from a row: `datetime.strptime(expense[0], "%Y.%m.%d")`, with
an out-of-range index or a parse failure giving nothing (both exception paths
are caught by the callers). -/
def rowDate? (row : SheetRow) : Option (Nat × Nat × Nat) :=
  match row[0]? with
  | some t => parseDate? t
  | none => none

/-- Date-filter test applied to one row by `view_expenses` (src/main.py lines
599-606): parse the first cell, apply the filter; parse failures make the row
a non-match (the `except` clause just skips it). -/
def matchesFilter (pred : Nat × Nat × Nat → Bool) (row : SheetRow) : Bool :=
  match rowDate? row with
  | some d => pred d
  | none => false

/-- Row selection of `view_expenses` (lines 596-609): all matching rows when a
date filter is given, otherwise the last five rows. -/
def viewSelection (expenses : List SheetRow)
    (filt : Option ((Nat × Nat × Nat) → Bool)) : List SheetRow :=
  match filt with
  | some pred => expenses.filter (matchesFilter pred)
  | none => if expenses.length > 5 then expenses.drop (expenses.length - 5) else expenses

/-- The rows in the order `view_expenses` renders them (line 620):
`reversed(filtered_expenses)`. -/
def viewDisplayed (expenses : List SheetRow)
    (filt : Option ((Nat × Nat × Nat) → Bool)) : List SheetRow :=
  (viewSelection expenses filt).reverse

/-- Row selection and order of `show_expenses_for_edit` (lines 786-798): the
last ten rows, rendered in reverse. -/
def editListDisplayed (expenses : List SheetRow) : List SheetRow :=
  (if expenses.length > 10 then expenses.drop (expenses.length - 10) else expenses).reverse

/-- Row selection and order of `show_expenses_for_delete` (lines 1192-1204). -/
def deleteListDisplayed (expenses : List SheetRow) : List SheetRow :=
  (if expenses.length > 10 then expenses.drop (expenses.length - 10) else expenses).reverse

/-- Chronological ordinal of a parsed `(year, month, day)` triple. -/
def ordOf (d : Nat × Nat × Nat) : Nat :=
  toordinal d.1 d.2.1 d.2.2

/-- The custom-range predicate built by `search_date_range` (src/main.py line
739): `start_date.date() <= d.date() <= end_date.date()`, dates compared
chronologically. -/
def rangePred (startD endD : Nat × Nat × Nat) (d : Nat × Nat × Nat) : Bool :=
  decide (ordOf startD ≤ ordOf d ∧ ordOf d ≤ ordOf endD)

/-- Amount read from a row: `float(expense[2])`, with an out-of-range index or
a parse failure giving nothing (both exception paths are caught). -/
def rowAmount? (e : SheetRow) : Option ℚ :=
  match e[2]? with
  | some s => parseFloat? s
  | none => none

/-- One iteration of the grand-total loop of `show_summary_stats` (src/main.py
lines 1386-1391): add a parseable amount, skip the rest. -/
def totalStep (acc : ℚ) (e : SheetRow) : ℚ :=
  match rowAmount? e with
  | some a => acc + a
  | none => acc

/-- Grand total of `show_summary_stats` (src/main.py lines 1385-1391). -/
def total_amount (expenses : List SheetRow) : ℚ :=
  expenses.foldl totalStep 0

/-- `dict[key] = dict.get(key, 0) + amount` on an insertion-ordered dict. -/
def dictInsert (k : String) (v : ℚ) : List (String × ℚ) → List (String × ℚ)
  | [] => [(k, v)]
  | (k2, v2) :: rest =>
    if k2 = k then (k2, v2 + v) :: rest else (k2, v2) :: dictInsert k v rest

/-- One iteration of the per-category loop (lines 1395-1402): rows with at
least four cells and a parseable amount are grouped by the category cell. -/
def catStep (d : List (String × ℚ)) (e : SheetRow) : List (String × ℚ) :=
  if e.length > 3 then
    match rowAmount? e with
    | some a => dictInsert (e.getD 3 "") a d
    | none => d
  else d

/-- Per-category totals of `show_summary_stats` (lines 1393-1402). -/
def categoriesDict (expenses : List SheetRow) : List (String × ℚ) :=
  expenses.foldl catStep []

/-- One iteration of the per-tag loop (lines 1406-1413): rows with at least
six cells and a parseable amount are grouped by the tag cell. -/
def tagStep (d : List (String × ℚ)) (e : SheetRow) : List (String × ℚ) :=
  if e.length > 5 then
    match rowAmount? e with
    | some a => dictInsert (e.getD 5 "") a d
    | none => d
  else d

/-- Per-tag totals of `show_summary_stats` (lines 1404-1413). -/
def tagsDict (expenses : List SheetRow) : List (String × ℚ) :=
  expenses.foldl tagStep []

/-- Month key `date.strftime("%Y-%m")` (line 1420). -/
def monthKey (y m : Nat) : String :=
  pad4 y ++ "-" ++ pad2 m

/-- One iteration of the per-month loop (lines 1417-1424): rows whose date
cell parses and whose amount parses are grouped by calendar month. -/
def monthStep (d : List (String × ℚ)) (e : SheetRow) : List (String × ℚ) :=
  match rowDate? e with
  | some ymd =>
    match rowAmount? e with
    | some a => dictInsert (monthKey ymd.1 ymd.2.1) a d
    | none => d
  | none => d

/-- Per-month totals of `show_summary_stats` (lines 1416-1424). -/
def monthsDict (expenses : List SheetRow) : List (String × ℚ) :=
  expenses.foldl monthStep []

/-- Stable insertion into a list sorted by `R` (`R x y` = x may precede y). -/
def insertSorted (R : (String × ℚ) → (String × ℚ) → Prop) [DecidableRel R]
    (x : String × ℚ) : List (String × ℚ) → List (String × ℚ)
  | [] => [x]
  | y :: ys => if R x y then x :: y :: ys else y :: insertSorted R x ys

/-- Stable sort by `R`, modelling Python's stable `sorted`. -/
def sortOn (R : (String × ℚ) → (String × ℚ) → Prop) [DecidableRel R] :
    List (String × ℚ) → List (String × ℚ)
  | [] => []
  | x :: xs => insertSorted R x (sortOn R xs)

/-- Order of `sorted(items, key=lambda x: x[1], reverse=True)`: descending by
amount, original order among equals. -/
def byAmountDesc (a b : String × ℚ) : Prop := b.2 ≤ a.2

instance : DecidableRel byAmountDesc := fun a b => inferInstanceAs (Decidable (b.2 ≤ a.2))

/-- Order of `sorted(items, reverse=True)` on `(key, amount)` pairs:
descending lexicographically, keys (strings, compared by code point as Python
does) first. -/
def byKeyDesc (a b : String × ℚ) : Prop :=
  strLt b.1 a.1 = true ∨ (b.1 = a.1 ∧ b.2 ≤ a.2)

instance : DecidableRel byKeyDesc :=
  fun a b => inferInstanceAs (Decidable (strLt b.1 a.1 = true ∨ (b.1 = a.1 ∧ b.2 ≤ a.2)))

/-- The category listing of the summary (line 1434). -/
def sortedCategories (expenses : List SheetRow) : List (String × ℚ) :=
  sortOn byAmountDesc (categoriesDict expenses)

/-- The tag listing of the summary (line 1440). -/
def sortedTags (expenses : List SheetRow) : List (String × ℚ) :=
  sortOn byAmountDesc (tagsDict expenses)

/-- The month listing of the summary (line 1446): `sorted(..., reverse=True)`. -/
def sortedMonths (expenses : List SheetRow) : List (String × ℚ) :=
  sortOn byKeyDesc (monthsDict expenses)

/-- Total record count of the summary (line 1382). -/
def total_expenses (expenses : List SheetRow) : Nat := expenses.length

/-- The per-user scratch dict `context.user_data`, with the keys the edit and
calendar handlers touch. -/
structure UserData where
  expense : Option DraftDict := none
  edit_row_index : Option Nat := none
  edit_field_index : Option Nat := none
  edit_mode : Bool := false
  calendar_month : Option Nat := none
  calendar_year : Option Nat := none
deriving DecidableEq, Repr

/-- Result of one callback handler run: next conversation state, updated
scratch dict, single-cell ledger writes issued, and whether an uncaught
exception escaped the handler (an uncaught exception leaves the conversation
state unchanged and triggers the generic `error_handler`). -/
structure HandlerRes where
  nextState : ConvState
  ud : UserData
  cellWrites : List (Nat × Nat × String) := []
  raised : Bool := false
deriving DecidableEq, Repr

/-- `handle_edit_field_selection` (src/main.py lines 911-996): pick the input
mode for the selected field index; the date field (index 0) shows the
calendar picker and moves to CALENDAR_MONTH_SELECTION with `edit_mode` set. -/
def handle_edit_field_selection (data : String) (ud : UserData) : HandlerRes :=
  if data = "back_to_edit_list" then { nextState := ConvState.MENU, ud := ud }
  else
    match (splitOnChar '_' data)[2]? >>= natOfDigits? with
    | some fieldIndex =>
      let ud2 := { ud with edit_field_index := some fieldIndex }
      if fieldIndex = 3 then { nextState := ConvState.EDIT_VALUE, ud := ud2 }
      else if fieldIndex = 5 then { nextState := ConvState.EDIT_VALUE, ud := ud2 }
      else if fieldIndex = 0 then
        { nextState := ConvState.CALENDAR_MONTH_SELECTION
          ud := { ud2 with edit_mode := true } }
      else if fieldIndex = 6 then
        { nextState := ConvState.RECEIPT_UPLOAD, ud := { ud2 with edit_mode := true } }
      else { nextState := ConvState.EDIT_VALUE, ud := ud2 }
    | none =>
      -- `int(...)` raising is caught at line 990 and aborts to the menu
      { nextState := ConvState.MENU, ud := ud }

/-- `handle_calendar_month` (src/main.py lines 139-193); `now` supplies the
current date for the today shortcut.  Writing `user_data['expense']['date']`
raises `KeyError` when no draft dict exists (no branch catches it). -/
def handle_calendar_month (now : Nat × Nat × Nat) (data : String) (ud : UserData) :
    HandlerRes :=
  if data = "date_today" then
    match ud.expense with
    | some e =>
      { nextState := ConvState.PLACE
        ud := { ud with expense := some { e with date := some (dateStr now.1 now.2.1 now.2.2) } } }
    | none =>
      { nextState := ConvState.CALENDAR_MONTH_SELECTION, ud := ud, raised := true }
  else if data = "date_manual" then { nextState := ConvState.DATE, ud := ud }
  else if data = "back_to_menu" then { nextState := ConvState.MENU, ud := ud }
  else
    match splitOnChar '_' data with
    | [w, ms, ys] =>
      if w = "month" then
        match natOfDigits? ms, natOfDigits? ys with
        | some month, some year =>
          { nextState := ConvState.CALENDAR_DAY_SELECTION
            ud := { ud with calendar_month := some month, calendar_year := some year } }
        | _, _ =>
          -- failure inside the `try` falls back to manual date entry (line 193)
          { nextState := ConvState.DATE, ud := ud }
      else { nextState := ConvState.CALENDAR_MONTH_SELECTION, ud := ud }
    | _ => { nextState := ConvState.CALENDAR_MONTH_SELECTION, ud := ud }

/-- `handle_calendar_day` (src/main.py lines 227-256): a `day_` tag stores the
picked date into the entry draft `user_data['expense']` and moves to PLACE;
no ledger write is issued here. -/
def handle_calendar_day (data : String) (ud : UserData) : HandlerRes :=
  if data = "back_to_months" then
    { nextState := ConvState.CALENDAR_MONTH_SELECTION, ud := ud }
  else if data = "back_to_menu" then { nextState := ConvState.MENU, ud := ud }
  else if startsWithStr "day_" data then
    match ud.expense with
    | some e =>
      { nextState := ConvState.PLACE
        ud := { ud with expense := some { e with date := some (dropStr 4 data) } } }
    | none =>
      { nextState := ConvState.CALENDAR_DAY_SELECTION, ud := ud, raised := true }
  else { nextState := ConvState.CALENDAR_DAY_SELECTION, ud := ud }

/-- The callback handlers named in the `ConversationHandler` states table. -/
inductive Handler where
  | calendarMonth
  | calendarDay
  | categoryCallback
  | tagCallback
  | editFieldSelection
  | editValue
  | deleteConfirm
deriving DecidableEq, Repr

/-- The per-state callback routing of the `ConversationHandler` states table
(src/main.py lines 1514-1534), restricted to callback-query handlers: which
handler receives a button press with the given action tag in each state. -/
def dispatchCallback (st : ConvState) (data : String) : Option Handler :=
  match st with
  | ConvState.CALENDAR_MONTH_SELECTION =>
    if startsWithStr "month_" data || startsWithStr "date_" data || startsWithStr "back_" data then
      some Handler.calendarMonth
    else none
  | ConvState.CALENDAR_DAY_SELECTION =>
    if startsWithStr "day_" data || startsWithStr "back_" data then some Handler.calendarDay
    else none
  | ConvState.CATEGORY => some Handler.categoryCallback
  | ConvState.TAG => some Handler.tagCallback
  | ConvState.EDIT_FIELD =>
    if startsWithStr "edit_field_" data || startsWithStr "back_" data then
      some Handler.editFieldSelection
    else none
  | ConvState.EDIT_VALUE =>
    if startsWithStr "setcat_" data || startsWithStr "settag_" data
        || startsWithStr "back_" data || startsWithStr "day_" data then
      some Handler.editValue
    else none
  | ConvState.DELETE_CONFIRM =>
    if startsWithStr "confirm_" data || startsWithStr "cancel_" data then
      some Handler.deleteConfirm
    else none
  | _ => none

/-- One button-press step of the conversation in the states of the date-edit
scenario: route per the states table, then run the routed handler (`none`:
the tag reaches no handler of these states). -/
def runEditStep (now : Nat × Nat × Nat) (st : ConvState) (data : String)
    (ud : UserData) : Option HandlerRes :=
  match dispatchCallback st data with
  | some Handler.editFieldSelection => some (handle_edit_field_selection data ud)
  | some Handler.calendarMonth => some (handle_calendar_month now data ud)
  | some Handler.calendarDay => some (handle_calendar_day data ud)
  | _ => none

theorem lastN_reverse (l : List SheetRow) (n : Nat) :
    (if l.length > n then l.drop (l.length - n) else l).reverse = l.reverse.take n := by
  split
  · rw [List.reverse_drop]
    congr 1
    omega
  · rename_i h
    have hlen : l.reverse.length ≤ n := by
      simp only [List.length_reverse]
      omega
    rw [List.take_of_length_le hlen]

/-- C9: the default (unfiltered) listing renders the most recent five ledger
rows, and the edit and delete selection lists the most recent ten, all in
reverse append order by ledger position — the characterization
`reverse-then-take` is purely positional, independent of the rows' date
cells. -/
theorem c9_recent_listing_order (expenses : List SheetRow) :
    viewDisplayed expenses none = expenses.reverse.take 5
    ∧ editListDisplayed expenses = expenses.reverse.take 10
    ∧ deleteListDisplayed expenses = expenses.reverse.take 10 := by
  refine ⟨?_, ?_, ?_⟩
  · show (viewSelection expenses none).reverse = _
    have h : viewSelection expenses none
        = if expenses.length > 5 then expenses.drop (expenses.length - 5) else expenses := rfl
    rw [h, lastN_reverse]
  · exact lastN_reverse expenses 10
  · exact lastN_reverse expenses 10

/-- C10: with any date filter, every matching ledger row is rendered, in
reverse ledger order, with no truncation; the five-row cap applies only to
the unfiltered default view. -/
theorem c10_filtered_view_untruncated (expenses : List SheetRow)
    (pred : Nat × Nat × Nat → Bool) :
    viewDisplayed expenses (some pred) = expenses.reverse.filter (matchesFilter pred)
    ∧ (viewDisplayed expenses (some pred)).length = expenses.countP (matchesFilter pred)
    ∧ (∀ row, row ∈ viewDisplayed expenses (some pred)
        ↔ row ∈ expenses ∧ matchesFilter pred row = true)
    ∧ viewDisplayed expenses none = expenses.reverse.take 5 := by
  have hsel : viewSelection expenses (some pred) = expenses.filter (matchesFilter pred) := rfl
  refine ⟨?_, ?_, ?_, ?_⟩
  · show (viewSelection expenses (some pred)).reverse = _
    rw [hsel, List.filter_reverse]
  · show ((viewSelection expenses (some pred)).reverse).length = _
    rw [hsel]
    simp [List.countP_eq_length_filter]
  · intro row
    show row ∈ (viewSelection expenses (some pred)).reverse ↔ _
    rw [hsel]
    simp [List.mem_filter]
  · show (viewSelection expenses none).reverse = _
    have h : viewSelection expenses none
        = if expenses.length > 5 then expenses.drop (expenses.length - 5) else expenses := rfl
    rw [h, lastN_reverse]

/-- C4: committing an edit writes exactly the one cell `(r, f)` — the rest of
the row and all other rows are untouched — and the handler re-reads the row
after the write and shows it, with the new value in the edited field and the
old values elsewhere. -/
theorem c4_single_field_update (sheet : List SheetRow) (r f : Nat) (v : String)
    (hr1 : 1 ≤ r) (hr2 : r ≤ sheet.length) (hf : f < (row_values sheet r).length) :
    (update_expense_field sheet r f v).newSheet
        = sheet.set (r - 1) ((row_values sheet r).set f v)
    ∧ (update_expense_field sheet r f v).displayed
        = row_values (update_expense_field sheet r f v).newSheet r
    ∧ (update_expense_field sheet r f v).displayed = (row_values sheet r).set f v
    ∧ (update_expense_field sheet r f v).displayed[f]? = some v
    ∧ (∀ f2, f2 ≠ f →
        (update_expense_field sheet r f v).displayed[f2]? = (row_values sheet r)[f2]?)
    ∧ (∀ r2, 1 ≤ r2 → r2 ≠ r →
        row_values (update_expense_field sheet r f v).newSheet r2 = row_values sheet r2)
    ∧ (update_expense_field sheet r f v).nextState = ConvState.MENU := by
  have hidx : r - 1 < sheet.length := by omega
  have hnew : (update_expense_field sheet r f v).newSheet
      = sheet.set (r - 1) ((row_values sheet r).set f v) := by
    show update_cell sheet r (f + 1) v = _
    unfold update_cell row_values
    congr 1
  have hdisp : (update_expense_field sheet r f v).displayed = (row_values sheet r).set f v := by
    show row_values (update_cell sheet r (f + 1) v) r = _
    unfold update_cell row_values
    rw [List.getD_eq_getElem?_getD, List.getElem?_set_eq_of_lt _ hidx]
    rfl
  refine ⟨hnew, rfl, hdisp, ?_, ?_, ?_, rfl⟩
  · rw [hdisp, List.getElem?_set_eq_of_lt _ hf]
  · intro f2 hf2
    rw [hdisp, List.getElem?_set_ne (by omega)]
  · intro r2 h1 h2
    rw [hnew]
    unfold row_values
    rw [List.getD_eq_getElem?_getD, List.getD_eq_getElem?_getD,
      List.getElem?_set_ne (by omega), ← List.getD_eq_getElem?_getD]

/-- C4 witness: at a concrete two-row ledger, editing field 2 of row 2. -/
theorem c4_single_field_update_witness :
    (1 ≤ 2 ∧ 2 ≤ ([["h1", "h2", "h3", "h4", "h5", "h6", "h7"],
        ["2025.01.01", "Cafe", "12.5", "Food", "R1", "Personal", "No receipt"]] :
          List SheetRow).length)
    ∧ (update_expense_field [["h1", "h2", "h3", "h4", "h5", "h6", "h7"],
        ["2025.01.01", "Cafe", "12.5", "Food", "R1", "Personal", "No receipt"]]
        2 2 "99.00").displayed[2]? = some "99.00" :=
  ⟨⟨by decide, by decide⟩,
    (c4_single_field_update
      [["h1", "h2", "h3", "h4", "h5", "h6", "h7"],
       ["2025.01.01", "Cafe", "12.5", "Food", "R1", "Personal", "No receipt"]]
      2 2 "99.00" (by decide) (by decide) (by decide)).2.2.2.1⟩

/-- C6 counterexample: the input "-5" parses to the non-positive value −5 and
is nevertheless accepted by both amount handlers — the entry flow stores −5
and advances to CATEGORY (without any 2-decimal re-serialization of the
stored draft value), and the edit flow commits "-5.00" — refuting the claim
that an amount is accepted only if it parses to a positive decimal. -/
theorem c6_counterexample :
    amount_input "-5" = (some (-5 : ℚ), ConvState.CATEGORY)
    ∧ editAmountStep "-5" = (some "-5.00", ConvState.MENU)
    ∧ (-5 : ℚ) ≤ 0 := by
  have hp : parseFloat? "-5" = some (-((5 : Nat) : ℚ)) := rfl
  have hc : (-((5 : Nat) : ℚ)) = (-5 : ℚ) := by norm_num
  have hround : round ((-5 : ℚ) * 100) = (-500 : ℤ) := by
    norm_num [round_eq]
  have hfmt : format2 (-5 : ℚ) = "-5.00" := by
    simp only [format2, hround]
    decide
  refine ⟨?_, ?_, by norm_num⟩
  · simp [amount_input, hp, hc]
  · simp [editAmountStep, hp, hc, hfmt]

/-- C6 amended: an amount input (entry flow or amount edit) is accepted iff
CPython `float()` parses it — the sign and value are unrestricted, so zero
and negative amounts pass; an unparseable input is rejected with a re-prompt
in the same state (AMOUNT resp. EDIT_VALUE); only the edit path re-serializes
the accepted value to fixed 2-decimal form before the write, while the entry
flow stores the parsed value itself in the draft. -/
theorem c6_amount_validation (s : String) :
    amount_input s
      = (parseFloat? s,
         if (parseFloat? s).isSome then ConvState.CATEGORY else ConvState.AMOUNT)
    ∧ editAmountStep s
      = ((parseFloat? s).map format2,
         if (parseFloat? s).isSome then ConvState.MENU else ConvState.EDIT_VALUE) := by
  unfold amount_input editAmountStep
  cases parseFloat? s <;> simp

theorem saveExpense_terminal (e : DraftDict) (link : String) (prior : List String)
    (aOk : Bool) :
    (saveExpense e link prior aOk).cleared = true
    ∧ (saveExpense e link prior aOk).nextState = ConvState.MENU := by
  obtain ⟨od, op, oa, oc, orn, ot, ou⟩ := e
  cases od <;> cases op <;> cases oa <;> cases oc <;> cases orn <;> cases ot <;> cases ou <;>
    cases aOk <;> simp [saveExpense]

theorem saveExpense_appended_inv (e : DraftDict) (link : String) (prior : List String)
    (aOk : Bool) (row : List String)
    (h : (saveExpense e link prior aOk).appended = some row) :
    row.length = 7
    ∧ ∃ u, (saveExpense e link prior aOk).uploadField = some u ∧ row[6]? = some u := by
  obtain ⟨od, op, oa, oc, orn, ot, ou⟩ := e
  cases od <;> cases op <;> cases oa <;> cases oc <;> cases orn <;> cases ot <;> cases ou <;>
    cases aOk <;> simp [saveExpense] at h ⊢
  subst h
  simp

theorem receipt_upload_appended_inv (e : DraftDict) (input : MsgInput) (sOk aOk : Bool)
    (ph : PhotoOutcome) (row : List String)
    (h : (receipt_upload e input sOk ph aOk).appended = some row) :
    row.length = 7
    ∧ ∃ u, (receipt_upload e input sOk ph aOk).uploadField = some u ∧ row[6]? = some u := by
  cases sOk
  · simp [receipt_upload] at h
  · cases input with
    | text s =>
      by_cases hs : lowerStr s = "skip"
      · simp only [receipt_upload, hs, if_true, reduceCtorEq, Bool.true_eq_false,
          if_false] at h ⊢
        exact saveExpense_appended_inv _ _ _ _ _ h
      · simp [receipt_upload, hs] at h
    | photo =>
      cases ph with
      | downloadFailed => simp [receipt_upload] at h
      | uploaded link =>
        simpa [receipt_upload] using
          saveExpense_appended_inv _ _ _ _ _ (by simpa [receipt_upload] using h)
      | uploadFailed =>
        simpa [receipt_upload] using
          saveExpense_appended_inv _ _ _ _ _ (by simpa [receipt_upload] using h)
      | processingError =>
        simpa [receipt_upload] using
          saveExpense_appended_inv _ _ _ _ _ (by simpa [receipt_upload] using h)

/-- C1: when the receipt step's Drive upload fails (or receipt processing
raises) while every non-attachment draft field is set, the completed record
is still appended, with the attachment cell holding the corresponding failure
sentinel, and the user gets both the image-failure reply and the saved
confirmation; typing skip appends with the "No receipt" sentinel; and for
every append the attachment cell is set from the draft's upload key, which is
never absent at the write. -/
theorem c1_partial_failure_still_appended (e : DraftDict) (d p c rn t : String) (a : ℚ)
    (hd : e.date = some d) (hp : e.place = some p) (ha : e.amount = some a)
    (hc : e.category = some c) (hr : e.receipt_number = some rn) (ht : e.tag = some t) :
    (receipt_upload e MsgInput.photo true PhotoOutcome.uploadFailed true).appended
        = some [d, p, toString a, c, rn, t, "Upload failed - error"]
    ∧ uploadErrMsg ∈ (receipt_upload e MsgInput.photo true PhotoOutcome.uploadFailed true).replies
    ∧ savedMsg d p a c rn t "" ∈
        (receipt_upload e MsgInput.photo true PhotoOutcome.uploadFailed true).replies
    ∧ (receipt_upload e MsgInput.photo true PhotoOutcome.processingError true).appended
        = some [d, p, toString a, c, rn, t, "Processing error"]
    ∧ processingErrMsg ∈
        (receipt_upload e MsgInput.photo true PhotoOutcome.processingError true).replies
    ∧ (∀ s, lowerStr s = "skip" →
        (receipt_upload e (MsgInput.text s) true PhotoOutcome.uploadFailed true).appended
          = some [d, p, toString a, c, rn, t, "No receipt"])
    ∧ (∀ (e2 : DraftDict) (input : MsgInput) (sOk aOk : Bool) (ph : PhotoOutcome)
          (row : List String),
        (receipt_upload e2 input sOk ph aOk).appended = some row →
          row.length = 7
          ∧ ∃ u, (receipt_upload e2 input sOk ph aOk).uploadField = some u
              ∧ row[6]? = some u) := by
  refine ⟨?_, ?_, ?_, ?_, ?_, ?_, ?_⟩
  · simp [receipt_upload, saveExpense, hd, hp, ha, hc, hr, ht]
  · simp [receipt_upload, saveExpense, hd, hp, ha, hc, hr, ht]
  · simp [receipt_upload, saveExpense, hd, hp, ha, hc, hr, ht]
  · simp [receipt_upload, saveExpense, hd, hp, ha, hc, hr, ht]
  · simp [receipt_upload, saveExpense, hd, hp, ha, hc, hr, ht]
  · intro s hs
    simp [receipt_upload, saveExpense, hs, hd, hp, ha, hc, hr, ht]
  · intro e2 input sOk aOk ph row h
    exact receipt_upload_appended_inv e2 input sOk aOk ph row h

/-- A concrete completed draft, used for witnesses and counterexamples. -/
def sampleDraft : DraftDict :=
  { date := some "2025.01.01", place := some "Cafe", amount := some 5
    category := some "Food", receipt_number := some "R1", tag := some "Personal" }

/-- C1 witness: the partial-failure append at a concrete completed draft. -/
theorem c1_partial_failure_still_appended_witness :
    (receipt_upload sampleDraft MsgInput.photo true PhotoOutcome.uploadFailed true).appended
      = some ["2025.01.01", "Cafe", toString (5 : ℚ), "Food", "R1", "Personal",
              "Upload failed - error"]
    ∧ uploadErrMsg ∈
        (receipt_upload sampleDraft MsgInput.photo true PhotoOutcome.uploadFailed true).replies :=
  ⟨(c1_partial_failure_still_appended sampleDraft "2025.01.01" "Cafe" "Food" "R1" "Personal" 5
      rfl rfl rfl rfl rfl rfl).1,
   (c1_partial_failure_still_appended sampleDraft "2025.01.01" "Cafe" "Food" "R1" "Personal" 5
      rfl rfl rfl rfl rfl rfl).2.1⟩

/-- C2 amended: whenever the terminal step reaches its save block (a skip or
a photo whose download step did not fail), the scratch context is cleared
unconditionally after the ledger append is attempted — also when the append
itself fails — and the handler resolves to MENU.  (The claim's further part,
that *any* unrecoverable external-collaborator failure clears the scratch
context, fails on the service-initialization path; see the counterexample.) -/
theorem c2_cleared_after_append_attempt (e : DraftDict) (input : MsgInput)
    (ph : PhotoOutcome) (aOk : Bool)
    (hreach : (∃ s, input = MsgInput.text s ∧ lowerStr s = "skip")
      ∨ (input = MsgInput.photo ∧ ph ≠ PhotoOutcome.downloadFailed)) :
    (receipt_upload e input true ph aOk).cleared = true
    ∧ (receipt_upload e input true ph aOk).nextState = ConvState.MENU := by
  rcases hreach with ⟨s, rfl, hs⟩ | ⟨rfl, hph⟩
  · simpa [receipt_upload, hs] using saveExpense_terminal _ _ _ aOk
  · cases ph with
    | downloadFailed => exact absurd rfl hph
    | uploaded link => simpa [receipt_upload] using saveExpense_terminal _ _ _ aOk
    | uploadFailed => simpa [receipt_upload] using saveExpense_terminal _ _ _ aOk
    | processingError => simpa [receipt_upload] using saveExpense_terminal _ _ _ aOk

/-- C2 witness: with a failing ledger append after a failed upload, the
scratch context is still cleared and the session resolves to MENU. -/
theorem c2_cleared_after_append_attempt_witness :
    (receipt_upload sampleDraft MsgInput.photo true PhotoOutcome.uploadFailed false).cleared
        = true
    ∧ (receipt_upload sampleDraft MsgInput.photo true PhotoOutcome.uploadFailed false).nextState
        = ConvState.MENU :=
  c2_cleared_after_append_attempt sampleDraft MsgInput.photo PhotoOutcome.uploadFailed false
    (Or.inr ⟨rfl, by decide⟩)

/-- C2 counterexample: when initializing the Google services fails (ledger
and attachment store unreachable — src/main.py lines 371-381), the handler
returns `ConversationHandler.END` (control back at MENU) *before* the
`context.user_data.clear()` of line 516 runs, so the machine resolves to MENU
with the scratch draft still present, refuting "on any unrecoverable
external-collaborator failure ... all scratch context cleared". -/
theorem c2_counterexample :
    (receipt_upload sampleDraft MsgInput.photo false PhotoOutcome.uploadFailed true).cleared
        = false
    ∧ (receipt_upload sampleDraft MsgInput.photo false PhotoOutcome.uploadFailed true).nextState
        = ConvState.MENU
    ∧ sampleDraft.date = some "2025.01.01" :=
  ⟨rfl, rfl, rfl⟩

/-- The scratch context right after an expense row (here ledger row 5) was
selected for editing: `edit_row_index` is set, and there is no entry draft
(`user_data['expense']` was never created in the edit flow). -/
def udEditing : UserData := { edit_row_index := some 5 }

/-- The scratch context after the date field was then selected. -/
def udEditingDate : UserData :=
  { edit_row_index := some 5, edit_field_index := some 0, edit_mode := true }

/-- The scratch context after January 2025 was then picked in the calendar. -/
def udEditingDateMonth : UserData :=
  { edit_row_index := some 5, edit_field_index := some 0, edit_mode := true
    calendar_month := some 1, calendar_year := some 2025 }

/-- C5, evaluated at the failing input: in the edit flow, selecting the date
field does present the calendar picker (state CALENDAR_MONTH_SELECTION), but
after picking a month the `day_` button press is routed by the states table
to `handle_calendar_day` — not to `handle_edit_value`'s `day_`/edit-mode
commit branch — which issues no ledger write and raises `KeyError` on the
missing entry draft (or, when a stale draft exists, mutates that draft and
moves to PLACE); the picked date is never committed to the stored row and the
flow does not return to MENU.  The today shortcut fails the same way. -/
theorem c5_date_edit_never_commits :
    runEditStep (2025, 1, 15) ConvState.EDIT_FIELD "edit_field_0" udEditing
      = some { nextState := ConvState.CALENDAR_MONTH_SELECTION, ud := udEditingDate }
    ∧ runEditStep (2025, 1, 15) ConvState.CALENDAR_MONTH_SELECTION "month_1_2025" udEditingDate
      = some { nextState := ConvState.CALENDAR_DAY_SELECTION, ud := udEditingDateMonth }
    ∧ dispatchCallback ConvState.CALENDAR_DAY_SELECTION "day_2025.01.05"
      = some Handler.calendarDay
    ∧ runEditStep (2025, 1, 15) ConvState.CALENDAR_DAY_SELECTION "day_2025.01.05"
        udEditingDateMonth
      = some { nextState := ConvState.CALENDAR_DAY_SELECTION, ud := udEditingDateMonth
               cellWrites := [], raised := true }
    ∧ (∀ e : DraftDict,
        handle_calendar_day "day_2025.01.05" { udEditingDateMonth with expense := some e }
          = { nextState := ConvState.PLACE
              ud := { udEditingDateMonth with
                        expense := some { e with date := some "2025.01.05" } }
              cellWrites := [], raised := false })
    ∧ (∀ e : DraftDict,
        handle_calendar_month (2025, 1, 15) "date_today"
            { udEditingDate with expense := some e }
          = { nextState := ConvState.PLACE
              ud := { udEditingDate with
                        expense := some { e with date := some (dateStr 2025 1 15) } }
              cellWrites := [], raised := false })
    ∧ handle_calendar_month (2025, 1, 15) "date_today" udEditingDate
      = { nextState := ConvState.CALENDAR_MONTH_SELECTION, ud := udEditingDate
          cellWrites := [], raised := true } := by
  refine ⟨rfl, rfl, rfl, rfl, fun e => rfl, fun e => rfl, rfl⟩

/-- C7: a row is selected by the custom-range filter iff its date cell parses
and `start ≤ recordDate ≤ end` (chronologically, by day ordinal), inclusive
on both ends; a date exactly on either bound passes the predicate, a date one
day outside either bound fails it, and a row whose date cell does not parse
is skipped (never selected, without disturbing the scan of the rest). -/
theorem c7_range_filter_inclusive (s e : Nat × Nat × Nat) (expenses : List SheetRow) :
    (∀ row, row ∈ expenses.filter (matchesFilter (rangePred s e))
        ↔ row ∈ expenses
          ∧ ∃ d, rowDate? row = some d ∧ ordOf s ≤ ordOf d ∧ ordOf d ≤ ordOf e)
    ∧ (∀ d, ordOf d = ordOf s ∨ ordOf d = ordOf e → ordOf s ≤ ordOf e →
        rangePred s e d = true)
    ∧ (∀ d, ordOf d + 1 = ordOf s ∨ ordOf d = ordOf e + 1 →
        rangePred s e d = false)
    ∧ (∀ row, rowDate? row = none → matchesFilter (rangePred s e) row = false) := by
  refine ⟨?_, ?_, ?_, ?_⟩
  · intro row
    rw [List.mem_filter]
    constructor
    · rintro ⟨hmem, hmatch⟩
      refine ⟨hmem, ?_⟩
      unfold matchesFilter at hmatch
      cases hd : rowDate? row with
      | none => rw [hd] at hmatch; exact absurd hmatch (by simp)
      | some d =>
        rw [hd] at hmatch
        refine ⟨d, rfl, ?_, ?_⟩
        · exact (of_decide_eq_true hmatch).1
        · exact (of_decide_eq_true hmatch).2
    · rintro ⟨hmem, d, hd, h1, h2⟩
      refine ⟨hmem, ?_⟩
      unfold matchesFilter
      rw [hd]
      exact decide_eq_true ⟨h1, h2⟩
  · intro d hd hse
    unfold rangePred
    apply decide_eq_true
    omega
  · intro d hd
    unfold rangePred
    apply decide_eq_false
    omega
  · intro row hrow
    unfold matchesFilter
    rw [hrow]

/-- C7 witness: concrete bound checks for the range 2025.01.05 – 2025.01.10:
the start day itself passes, the day before fails, the day after the end
fails, and a malformed row never matches. -/
theorem c7_range_filter_inclusive_witness :
    rangePred (2025, 1, 5) (2025, 1, 10) (2025, 1, 5) = true
    ∧ rangePred (2025, 1, 5) (2025, 1, 10) (2025, 1, 10) = true
    ∧ rangePred (2025, 1, 5) (2025, 1, 10) (2025, 1, 4) = false
    ∧ rangePred (2025, 1, 5) (2025, 1, 10) (2025, 1, 11) = false
    ∧ matchesFilter (rangePred (2025, 1, 5) (2025, 1, 10)) ["BADDATE", "P", "5"] = false :=
  ⟨(c7_range_filter_inclusive (2025, 1, 5) (2025, 1, 10) []).2.1 (2025, 1, 5)
      (Or.inl (by decide)) (by decide),
   (c7_range_filter_inclusive (2025, 1, 5) (2025, 1, 10) []).2.1 (2025, 1, 10)
      (Or.inr (by decide)) (by decide),
   (c7_range_filter_inclusive (2025, 1, 5) (2025, 1, 10) []).2.2.1 (2025, 1, 4)
      (Or.inl (by decide)),
   (c7_range_filter_inclusive (2025, 1, 5) (2025, 1, 10) []).2.2.1 (2025, 1, 11)
      (Or.inr (by decide)),
   (c7_range_filter_inclusive (2025, 1, 5) (2025, 1, 10) []).2.2.2 ["BADDATE", "P", "5"]
      (by decide)⟩

theorem lexLt_irrefl (as : List Char) : lexLt as as = false := by
  induction as with
  | nil => rfl
  | cons a as ih => simp [lexLt, ih]

theorem lexLt_asymm (as : List Char) : ∀ bs, lexLt as bs = true → lexLt bs as = false := by
  induction as with
  | nil =>
    intro bs h
    cases bs with
    | nil => simp [lexLt] at h
    | cons b bs => rfl
  | cons a as ih =>
    intro bs h
    cases bs with
    | nil => simp [lexLt] at h
    | cons b bs =>
      simp only [lexLt] at h ⊢
      by_cases h1 : a.toNat < b.toNat
      · rw [if_neg (by omega), if_pos h1]
      · by_cases h2 : b.toNat < a.toNat
        · rw [if_neg h1, if_pos h2] at h
          exact absurd h (by simp)
        · rw [if_neg h1, if_neg h2] at h
          rw [if_neg h2, if_neg h1]
          exact ih bs h

theorem lexLt_trans (as : List Char) :
    ∀ bs cs, lexLt as bs = true → lexLt bs cs = true → lexLt as cs = true := by
  induction as with
  | nil =>
    intro bs cs h1 h2
    cases cs with
    | nil =>
      cases bs with
      | nil => simp [lexLt] at h1
      | cons b bs => simp [lexLt] at h2
    | cons c cs => rfl
  | cons a as ih =>
    intro bs cs h1 h2
    cases bs with
    | nil => simp [lexLt] at h1
    | cons b bs =>
      cases cs with
      | nil => simp [lexLt] at h2
      | cons c cs =>
        simp only [lexLt] at h1 h2 ⊢
        by_cases hab1 : a.toNat < b.toNat
        · by_cases hbc1 : b.toNat < c.toNat
          · rw [if_pos (by omega)]
          · by_cases hbc2 : c.toNat < b.toNat
            · rw [if_neg hbc1, if_pos hbc2] at h2
              exact absurd h2 (by simp)
            · have : b.toNat = c.toNat := by omega
              rw [if_pos (by omega)]
        · by_cases hab2 : b.toNat < a.toNat
          · rw [if_neg hab1, if_pos hab2] at h1
            exact absurd h1 (by simp)
          · have hab : a.toNat = b.toNat := by omega
            rw [if_neg hab1, if_neg hab2] at h1
            by_cases hbc1 : b.toNat < c.toNat
            · rw [if_pos (by omega)]
            · by_cases hbc2 : c.toNat < b.toNat
              · rw [if_neg hbc1, if_pos hbc2] at h2
                exact absurd h2 (by simp)
              · rw [if_neg hbc1, if_neg hbc2] at h2
                rw [if_neg (by omega), if_neg (by omega)]
                exact ih bs cs h1 h2

theorem lexLt_total (as : List Char) :
    ∀ bs, lexLt as bs = true ∨ lexLt bs as = true ∨ as = bs := by
  induction as with
  | nil =>
    intro bs
    cases bs with
    | nil => right; right; rfl
    | cons b bs => left; rfl
  | cons a as ih =>
    intro bs
    cases bs with
    | nil => right; left; rfl
    | cons b bs =>
      by_cases h1 : a.toNat < b.toNat
      · left; simp [lexLt, h1]
      · by_cases h2 : b.toNat < a.toNat
        · right; left; simp [lexLt, h2]
        · have hab : a = b := by
            have hn : a.toNat = b.toNat := by omega
            exact Char.ext (UInt32.ext hn)
          subst hab
          rcases ih bs with h | h | h
          · left; simpa [lexLt] using h
          · right; left; simpa [lexLt] using h
          · right; right; rw [h]

theorem byAmountDesc_total (a b : String × ℚ) : byAmountDesc a b ∨ byAmountDesc b a :=
  le_total b.2 a.2

theorem byAmountDesc_trans (a b c : String × ℚ) :
    byAmountDesc a b → byAmountDesc b c → byAmountDesc a c :=
  fun h1 h2 => le_trans h2 h1

theorem byKeyDesc_total (a b : String × ℚ) : byKeyDesc a b ∨ byKeyDesc b a := by
  unfold byKeyDesc strLt
  rcases lexLt_total b.1.data a.1.data with h | h | h
  · left; left; exact h
  · right; left; exact h
  · have : b.1 = a.1 := String.ext h
    rcases le_total b.2 a.2 with h2 | h2
    · left; right; exact ⟨this, h2⟩
    · right; right; exact ⟨this.symm, h2⟩

theorem byKeyDesc_trans (a b c : String × ℚ) :
    byKeyDesc a b → byKeyDesc b c → byKeyDesc a c := by
  unfold byKeyDesc strLt
  rintro (h1 | ⟨he1, hq1⟩) (h2 | ⟨he2, hq2⟩)
  · left; exact lexLt_trans c.1.data b.1.data a.1.data h2 h1
  · left; rw [show c.1 = b.1 from he2]; exact h1
  · left; rw [← show b.1 = a.1 from he1]; exact h2
  · right; exact ⟨he2.trans he1, hq2.trans hq1⟩

theorem mem_insertSorted (R : (String × ℚ) → (String × ℚ) → Prop) [DecidableRel R]
    (x y : String × ℚ) (l : List (String × ℚ)) :
    y ∈ insertSorted R x l ↔ y = x ∨ y ∈ l := by
  induction l with
  | nil => simp [insertSorted]
  | cons z zs ih =>
    unfold insertSorted
    split
    · simp [List.mem_cons]
    · simp only [List.mem_cons, ih]
      tauto

theorem pairwise_insertSorted (R : (String × ℚ) → (String × ℚ) → Prop) [DecidableRel R]
    (htot : ∀ a b, R a b ∨ R b a) (htrans : ∀ a b c, R a b → R b c → R a c)
    (x : String × ℚ) (l : List (String × ℚ)) (hl : l.Pairwise R) :
    (insertSorted R x l).Pairwise R := by
  induction l with
  | nil => simp [insertSorted]
  | cons y ys ih =>
    rw [List.pairwise_cons] at hl
    obtain ⟨hy, hys⟩ := hl
    unfold insertSorted
    split
    · rename_i hxy
      rw [List.pairwise_cons]
      refine ⟨?_, List.pairwise_cons.mpr ⟨hy, hys⟩⟩
      intro z hz
      rcases List.mem_cons.mp hz with rfl | hz
      · exact hxy
      · exact htrans x y z hxy (hy z hz)
    · rename_i hxy
      have hyx : R y x := (htot x y).resolve_left hxy
      rw [List.pairwise_cons]
      refine ⟨?_, ih hys⟩
      intro z hz
      rcases (mem_insertSorted R x z ys).mp hz with rfl | hz
      · exact hyx
      · exact hy z hz

theorem pairwise_sortOn (R : (String × ℚ) → (String × ℚ) → Prop) [DecidableRel R]
    (htot : ∀ a b, R a b ∨ R b a) (htrans : ∀ a b c, R a b → R b c → R a c)
    (l : List (String × ℚ)) : (sortOn R l).Pairwise R := by
  induction l with
  | nil => simp [sortOn]
  | cons x xs ih => exact pairwise_insertSorted R htot htrans x (sortOn R xs) ih

/-- Sum of the amount components of an aggregation listing. -/
def sndSum (l : List (String × ℚ)) : ℚ :=
  (l.map Prod.snd).sum

theorem insertSorted_sndSum (R : (String × ℚ) → (String × ℚ) → Prop) [DecidableRel R]
    (x : String × ℚ) (l : List (String × ℚ)) :
    sndSum (insertSorted R x l) = x.2 + sndSum l := by
  induction l with
  | nil => simp [insertSorted, sndSum]
  | cons y ys ih =>
    unfold insertSorted
    split
    · simp [sndSum]
    · simp only [sndSum, List.map_cons, List.sum_cons] at ih ⊢
      rw [ih]
      ring

theorem sortOn_sndSum (R : (String × ℚ) → (String × ℚ) → Prop) [DecidableRel R]
    (l : List (String × ℚ)) : sndSum (sortOn R l) = sndSum l := by
  induction l with
  | nil => rfl
  | cons x xs ih =>
    show sndSum (insertSorted R x (sortOn R xs)) = _
    rw [insertSorted_sndSum, ih]
    simp [sndSum]

theorem dictInsert_sndSum (k : String) (v : ℚ) (l : List (String × ℚ)) :
    sndSum (dictInsert k v l) = v + sndSum l := by
  induction l with
  | nil => simp [dictInsert, sndSum]
  | cons p ps ih =>
    unfold dictInsert
    split
    · simp only [sndSum, List.map_cons, List.sum_cons]
      ring
    · simp only [sndSum, List.map_cons, List.sum_cons] at ih ⊢
      rw [ih]
      ring

/-- The contribution of one row to the grand total. -/
def amtContrib (e : SheetRow) : ℚ :=
  (rowAmount? e).getD 0

/-- The contribution of one row to the per-category totals. -/
def catContrib (e : SheetRow) : ℚ :=
  if e.length > 3 then (rowAmount? e).getD 0 else 0

theorem total_amount_foldl (l : List SheetRow) :
    ∀ acc : ℚ, l.foldl totalStep acc = acc + (l.map amtContrib).sum := by
  induction l with
  | nil => intro acc; simp
  | cons e es ih =>
    intro acc
    simp only [List.foldl_cons, List.map_cons, List.sum_cons]
    rw [ih]
    cases ha : rowAmount? e with
    | some a => simp [totalStep, ha, amtContrib]; ring
    | none => simp [totalStep, ha, amtContrib]

theorem total_amount_eq (expenses : List SheetRow) :
    total_amount expenses = (expenses.map amtContrib).sum := by
  unfold total_amount
  rw [total_amount_foldl]
  ring

theorem catStep_sndSum (d : List (String × ℚ)) (e : SheetRow) :
    sndSum (catStep d e) = sndSum d + catContrib e := by
  unfold catStep catContrib
  by_cases hl : e.length > 3
  · cases ha : rowAmount? e with
    | some a => simp [hl, ha, dictInsert_sndSum]; ring
    | none => simp [hl, ha]
  · simp [hl]

theorem categoriesDict_foldl (l : List SheetRow) :
    ∀ d0 : List (String × ℚ),
      sndSum (l.foldl catStep d0) = sndSum d0 + (l.map catContrib).sum := by
  induction l with
  | nil => intro d0; simp
  | cons e es ih =>
    intro d0
    simp only [List.foldl_cons, List.map_cons, List.sum_cons]
    rw [ih, catStep_sndSum]
    ring

theorem categoriesDict_sndSum (expenses : List SheetRow) :
    sndSum (categoriesDict expenses) = (expenses.map catContrib).sum := by
  unfold categoriesDict
  rw [categoriesDict_foldl]
  simp [sndSum]

theorem totalStep_skip (acc : ℚ) (bad : SheetRow) (h : rowAmount? bad = none) :
    totalStep acc bad = acc := by
  simp [totalStep, h]

theorem catStep_skip (d : List (String × ℚ)) (bad : SheetRow)
    (h : rowAmount? bad = none) : catStep d bad = d := by
  unfold catStep
  split <;> simp [h]

theorem tagStep_skip (d : List (String × ℚ)) (bad : SheetRow)
    (h : rowAmount? bad = none) : tagStep d bad = d := by
  unfold tagStep
  split <;> simp [h]

theorem monthStep_skip_amount (d : List (String × ℚ)) (bad : SheetRow)
    (h : rowAmount? bad = none) : monthStep d bad = d := by
  unfold monthStep
  cases hd : rowDate? bad <;> simp [h]

theorem monthStep_skip_date (d : List (String × ℚ)) (bad : SheetRow)
    (h : rowDate? bad = none) : monthStep d bad = d := by
  simp [monthStep, h]

theorem foldl_skip_middle {α : Type} (step : α → SheetRow → α) (init : α)
    (pre post : List SheetRow) (bad : SheetRow) (h : ∀ a, step a bad = a) :
    (pre ++ bad :: post).foldl step init = (pre ++ post).foldl step init := by
  rw [List.foldl_append, List.foldl_cons, h, List.foldl_append]

theorem byKeyDesc_not_ascending (a b : String × ℚ) (h : byKeyDesc a b) :
    strLt a.1 b.1 = false := by
  rcases h with h | ⟨he, _⟩
  · exact lexLt_asymm b.1.data a.1.data h
  · show lexLt a.1.data b.1.data = false
    rw [he]
    exact lexLt_irrefl a.1.data

/-- C8 amended: the summary reports the ledger row count and the grand total;
the per-category and per-tag listings are sorted descending by amount and the
per-month listing descending by month key (most recent first); a record with
an unparseable amount is excluded from all four amount aggregates, and a
record with an unparseable date is excluded from the per-month aggregate (it
still enters the other aggregates when its amount parses — see the
counterexample for the original claim); excluded rows never block the rest of
the scan; and when every record has at least four cells and a parseable
amount, the per-category totals sum to the grand total. -/
theorem c8_summary_aggregates (expenses pre post : List SheetRow) (bad : SheetRow) :
    total_expenses expenses = expenses.length
    ∧ (sortedCategories expenses).Pairwise byAmountDesc
    ∧ (sortedTags expenses).Pairwise byAmountDesc
    ∧ (sortedMonths expenses).Pairwise byKeyDesc
    ∧ (sortedMonths expenses).Pairwise (fun a b => strLt a.1 b.1 = false)
    ∧ ((∀ r ∈ expenses, r.length > 3 ∧ (rowAmount? r).isSome) →
        sndSum (sortedCategories expenses) = total_amount expenses)
    ∧ (rowAmount? bad = none →
        total_amount (pre ++ bad :: post) = total_amount (pre ++ post)
        ∧ categoriesDict (pre ++ bad :: post) = categoriesDict (pre ++ post)
        ∧ tagsDict (pre ++ bad :: post) = tagsDict (pre ++ post)
        ∧ monthsDict (pre ++ bad :: post) = monthsDict (pre ++ post))
    ∧ (rowDate? bad = none →
        monthsDict (pre ++ bad :: post) = monthsDict (pre ++ post)) := by
  refine ⟨rfl, ?_, ?_, ?_, ?_, ?_, ?_, ?_⟩
  · exact pairwise_sortOn byAmountDesc byAmountDesc_total byAmountDesc_trans _
  · exact pairwise_sortOn byAmountDesc byAmountDesc_total byAmountDesc_trans _
  · exact pairwise_sortOn byKeyDesc byKeyDesc_total byKeyDesc_trans _
  · exact List.Pairwise.imp (fun h => byKeyDesc_not_ascending _ _ h)
      (pairwise_sortOn byKeyDesc byKeyDesc_total byKeyDesc_trans _)
  · intro hall
    show sndSum (sortOn byAmountDesc (categoriesDict expenses)) = _
    rw [sortOn_sndSum, categoriesDict_sndSum, total_amount_eq]
    congr 1
    apply List.map_eq_map_iff.mpr
    intro r hr
    obtain ⟨hlen, _⟩ := hall r hr
    simp [catContrib, amtContrib, hlen]
  · intro h
    refine ⟨?_, ?_, ?_, ?_⟩
    · exact foldl_skip_middle totalStep 0 pre post bad (fun a => totalStep_skip a bad h)
    · exact foldl_skip_middle catStep [] pre post bad (fun a => catStep_skip a bad h)
    · exact foldl_skip_middle tagStep [] pre post bad (fun a => tagStep_skip a bad h)
    · exact foldl_skip_middle monthStep [] pre post bad
        (fun a => monthStep_skip_amount a bad h)
  · intro h
    exact foldl_skip_middle monthStep [] pre post bad
      (fun a => monthStep_skip_date a bad h)

/-- C8 witness: on a concrete two-row ledger every hypothesis of the summary
theorem is discharged — the category totals sum to the grand total, a row
with an unparseable amount is dropped from the grand total, and a row with an
unparseable date is dropped from the month aggregate. -/
theorem c8_summary_aggregates_witness :
    (∀ r ∈ [["2025.01.02", "P", "5", "Food", "R1", "Personal", "x"],
            ["2024.12.02", "Q", "7", "Other", "R2", "Business", "y"]],
        r.length > 3 ∧ (rowAmount? r).isSome)
    ∧ sndSum (sortedCategories
          [["2025.01.02", "P", "5", "Food", "R1", "Personal", "x"],
           ["2024.12.02", "Q", "7", "Other", "R2", "Business", "y"]])
        = total_amount
          [["2025.01.02", "P", "5", "Food", "R1", "Personal", "x"],
           ["2024.12.02", "Q", "7", "Other", "R2", "Business", "y"]]
    ∧ rowAmount? ["2025.01.03", "R", "abc", "Food", "R3", "Personal", "z"] = none
    ∧ total_amount ([["2025.01.02", "P", "5", "Food", "R1", "Personal", "x"]]
          ++ ["2025.01.03", "R", "abc", "Food", "R3", "Personal", "z"]
            :: [["2024.12.02", "Q", "7", "Other", "R2", "Business", "y"]])
        = total_amount ([["2025.01.02", "P", "5", "Food", "R1", "Personal", "x"]]
          ++ [["2024.12.02", "Q", "7", "Other", "R2", "Business", "y"]])
    ∧ rowDate? ["BADDATE", "R", "3", "Food", "R3", "Personal", "z"] = none
    ∧ monthsDict ([["2025.01.02", "P", "5", "Food", "R1", "Personal", "x"]]
          ++ ["BADDATE", "R", "3", "Food", "R3", "Personal", "z"]
            :: [["2024.12.02", "Q", "7", "Other", "R2", "Business", "y"]])
        = monthsDict ([["2025.01.02", "P", "5", "Food", "R1", "Personal", "x"]]
          ++ [["2024.12.02", "Q", "7", "Other", "R2", "Business", "y"]]) :=
  ⟨by decide,
   (c8_summary_aggregates
      [["2025.01.02", "P", "5", "Food", "R1", "Personal", "x"],
       ["2024.12.02", "Q", "7", "Other", "R2", "Business", "y"]]
      [] [] []).2.2.2.2.2.1 (by decide),
   by decide,
   ((c8_summary_aggregates []
      [["2025.01.02", "P", "5", "Food", "R1", "Personal", "x"]]
      [["2024.12.02", "Q", "7", "Other", "R2", "Business", "y"]]
      ["2025.01.03", "R", "abc", "Food", "R3", "Personal", "z"]).2.2.2.2.2.2.1
      (by decide)).1,
   by decide,
   (c8_summary_aggregates []
      [["2025.01.02", "P", "5", "Food", "R1", "Personal", "x"]]
      [["2024.12.02", "Q", "7", "Other", "R2", "Business", "y"]]
      ["BADDATE", "R", "3", "Food", "R3", "Personal", "z"]).2.2.2.2.2.2.2
      (by decide)⟩

/-- C8 counterexample: a record whose date cell does not parse but whose
amount does is *not* excluded from every aggregate — it still enters the
grand total and the per-category and per-tag totals — refuting "any record
with an unparseable amount or date is excluded from every aggregate". -/
theorem c8_counterexample :
    rowDate? ["BADDATE", "P", "5", "Food", "R1", "Personal", "x"] = none
    ∧ sortedCategories [["BADDATE", "P", "5", "Food", "R1", "Personal", "x"]]
        = [("Food", 5)]
    ∧ sortedTags [["BADDATE", "P", "5", "Food", "R1", "Personal", "x"]]
        = [("Personal", 5)]
    ∧ total_amount [["BADDATE", "P", "5", "Food", "R1", "Personal", "x"]] = 5 := by
  have h2 : sortedCategories [["BADDATE", "P", "5", "Food", "R1", "Personal", "x"]]
      = [("Food", ((5 : Nat) : ℚ))] := rfl
  have h3 : sortedTags [["BADDATE", "P", "5", "Food", "R1", "Personal", "x"]]
      = [("Personal", ((5 : Nat) : ℚ))] := rfl
  have h4 : total_amount [["BADDATE", "P", "5", "Food", "R1", "Personal", "x"]]
      = 0 + ((5 : Nat) : ℚ) := rfl
  refine ⟨by decide, ?_, ?_, ?_⟩
  · rw [h2]; norm_num
  · rw [h3]; norm_num
  · rw [h4]; norm_num

theorem dayRowsGo_flatten (y m fdw n : Nat) :
    ∀ (ds : List Nat) (week : List Button) (acc : List (List Button)),
      ds ≠ [] → ds.getLast? = some n →
      (dayRowsGo y m fdw n ds week acc).flatten
        = acc.flatten ++ week ++ ds.map (dayButton y m) := by
  intro ds
  induction ds with
  | nil => intro week acc h _; exact absurd rfl h
  | cons d ds ih =>
    intro week acc _ hlast
    by_cases hds : ds = []
    · subst hds
      have hd : d = n := by simpa using hlast
      subst hd
      simp only [dayRowsGo, beq_self_eq_true, Bool.or_true, if_true]
      simp
    · obtain ⟨e, es, rfl⟩ := List.exists_cons_of_ne_nil hds
      have hlast' : (e :: es).getLast? = some n := by
        rwa [List.getLast?_cons_cons] at hlast
      show (if ((fdw + d) % 7 == 0 || d == n) = true then
          dayRowsGo y m fdw n (e :: es) [] (acc ++ [week ++ [dayButton y m d]])
        else
          dayRowsGo y m fdw n (e :: es) (week ++ [dayButton y m d]) acc).flatten = _
      split
      · rw [ih [] (acc ++ [week ++ [dayButton y m d]]) (by simp) hlast']
        simp
      · rw [ih (week ++ [dayButton y m d]) acc (by simp) hlast']
        simp

theorem dayRowsGo_rowlens (y m fdw n : Nat) :
    ∀ (k d : Nat) (week : List Button) (acc : List (List Button)),
      d + k = n + 1 → 1 ≤ d →
      week.length = (fdw + (d - 1)) % 7 →
      (∀ r ∈ acc, r.length = 7) →
      ∀ r ∈ (dayRowsGo y m fdw n (List.range' d k) week acc).dropLast, r.length = 7 := by
  intro k
  induction k with
  | zero =>
    intro d week acc _ _ _ hacc r hr
    exact hacc r (List.mem_of_mem_dropLast hr)
  | succ k ih =>
    intro d week acc hdk hd1 hweek hacc
    have hsucc : List.range' d (k + 1) = d :: List.range' (d + 1) k := rfl
    rw [hsucc]
    show ∀ r ∈ (if ((fdw + d) % 7 == 0 || d == n) = true then
        dayRowsGo y m fdw n (List.range' (d + 1) k) []
          (acc ++ [week ++ [dayButton y m d]])
      else
        dayRowsGo y m fdw n (List.range' (d + 1) k)
          (week ++ [dayButton y m d]) acc).dropLast, r.length = 7
    split
    · rename_i hflush
      cases k with
      | zero =>
        show ∀ r ∈ (acc ++ [week ++ [dayButton y m d]]).dropLast, r.length = 7
        intro r hr
        rw [List.dropLast_concat] at hr
        exact hacc r hr
      | succ k2 =>
        have hdn : d ≠ n := by omega
        have h7 : (fdw + d) % 7 = 0 := by
          rcases (Bool.or_eq_true _ _).mp hflush with h | h
          · simpa using h
          · exact absurd (by simpa using h) hdn
        refine ih (d + 1) [] (acc ++ [week ++ [dayButton y m d]])
          (by omega) (by omega) ?_ ?_
        · simp
          omega
        · intro r hr
          rcases List.mem_append.mp hr with h | h
          · exact hacc r h
          · have hr2 : r = week ++ [dayButton y m d] := by simpa using h
            subst hr2
            simp [hweek]
            omega
    · rename_i hflush
      have hnot : ¬ ((fdw + d) % 7 = 0 ∨ d = n) := by
        intro hcon
        apply hflush
        rcases hcon with h | h
        · exact (Bool.or_eq_true _ _).mpr (Or.inl (by simpa using h))
        · exact (Bool.or_eq_true _ _).mpr (Or.inr (by simpa using h))
      refine ih (d + 1) (week ++ [dayButton y m d]) acc (by omega) (by omega) ?_ hacc
      simp [hweek]
      omega

theorem daysInMonth_ge_28 (y m : Nat) (h1 : 1 ≤ m) (h2 : m ≤ 12) :
    28 ≤ daysInMonth y m := by
  unfold daysInMonth mdays
  interval_cases m <;> cases isleap y <;> simp

theorem range'_one_getLast (n : Nat) (h : 1 ≤ n) :
    (List.range' 1 n).getLast? = some n := by
  obtain ⟨k, rfl⟩ : ∃ k, n = k + 1 := ⟨n - 1, by omega⟩
  rw [List.range'_1_concat, List.getLast?_concat]
  congr 1
  omega

/-- C3: for every month 1–12 of every year (February of leap and non-leap
years included), the day grid of `get_days_keyboard` flattens to exactly
`firstDayWeekday` blank cells followed by one day cell per day of the month
(each carrying `day_` plus the full `YYYY.MM.DD` date string as its action
tag, so the day-cell count is `daysInMonth` and the first non-blank cell
aligns with day 1's weekday); every grid row before the last holds exactly 7
cells (a new row after every 7th cell), and the final partial row is flushed
— no cell is dropped, as the flattening equation accounts for all of them;
the navigation row is appended after the grid. -/
theorem c3_calendar_grid (year month : Nat) (h1 : 1 ≤ month) (h2 : month ≤ 12) :
    (dayRows year month).flatten
        = List.replicate (firstDayWeekday year month) blankButton
          ++ (List.range' 1 (daysInMonth year month)).map (dayButton year month)
    ∧ (∀ r ∈ (dayRows year month).dropLast, r.length = 7)
    ∧ get_days_keyboard month year = dayRows year month ++ [navRow]
    ∧ (month = 2 → daysInMonth year month = if isleap year then 29 else 28)
    ∧ (∀ d, (dayButton year month d).callback_data = "day_" ++ dateStr year month d) := by
  have hn : 28 ≤ daysInMonth year month := daysInMonth_ge_28 year month h1 h2
  have hf : firstDayWeekday year month < 7 := Nat.mod_lt _ (by omega)
  refine ⟨?_, ?_, rfl, ?_, fun d => rfl⟩
  · unfold dayRows
    rw [dayRowsGo_flatten year month _ _ _ _ _ ?_ (range'_one_getLast _ (by omega))]
    · simp
    · have hlen : (List.range' 1 (daysInMonth year month)).length = daysInMonth year month := by
        simp
      intro hcon
      rw [hcon] at hlen
      simp at hlen
      omega
  · unfold dayRows
    intro r hr
    refine dayRowsGo_rowlens year month _ _ (daysInMonth year month) 1 _ _
      (by omega) (by omega) ?_ (by simp) r hr
    simp [Nat.mod_eq_of_lt hf]
  · intro hm
    subst hm
    show mdays.getD 2 0 + (if (2 == 2) && isleap year then 1 else 0) = _
    cases hl : isleap year <;> simp [mdays, hl]

/-- C3 witness: the grid of February 2024 (a leap year): day 1 falls on a
Thursday (weekday index 3) and the month has 29 days. -/
theorem c3_calendar_grid_witness :
    (1 ≤ 2 ∧ 2 ≤ 12 ∧ isleap 2024 = true ∧ firstDayWeekday 2024 2 = 3
      ∧ daysInMonth 2024 2 = 29)
    ∧ ((dayRows 2024 2).flatten
          = List.replicate (firstDayWeekday 2024 2) blankButton
            ++ (List.range' 1 (daysInMonth 2024 2)).map (dayButton 2024 2)
        ∧ (∀ r ∈ (dayRows 2024 2).dropLast, r.length = 7)
        ∧ get_days_keyboard 2 2024 = dayRows 2024 2 ++ [navRow]
        ∧ (2 = 2 → daysInMonth 2024 2 = if isleap 2024 then 29 else 28)
        ∧ (∀ d, (dayButton 2024 2 d).callback_data = "day_" ++ dateStr 2024 2 d)) :=
  ⟨⟨by decide, by decide, by decide, by decide, by decide⟩,
    c3_calendar_grid 2024 2 (by decide) (by decide)⟩
